import Mathlib

/-!
Shallow embedding of the operation lifecycle pipeline of the taquito
library (dist/taquito.umd.js and the operation factory in the unnamed
source part): operation preparation (`OperationEmitter.prototype.prepareOperation`),
injection (`OperationEmitter.prototype.inject`), fee estimation (`Estimate`),
confirmation polling (`Operation`), and the operation filter evaluator
(`sourceFilter`).

Modelling conventions: JavaScript numbers are embedded as `ℚ` (the
arithmetic performed by the code on the modelled inputs is exact), wire
decimal strings stay `String`, absent (`undefined`) fields are `Option`,
and thrown exceptions are `Except` errors.
-/

/-- Wire representation of one operation content entry. Numeric fields are
kept in their already-stringified form (the code's `"" + x` coercion is the
identity on this representation); a field holding `none` models a JS
`undefined` field. -/
structure RawOp where
  kind : String
  fee : Option String := none
  gas_limit : Option String := none
  storage_limit : Option String := none
  counter : Option String := none
  source : Option String := none
  amount : Option String := none
  destination : Option String := none
  balance : Option String := none
  public_key : Option String := none
  delegate : Option String := none
  manager_pubkey : Option String := none
  spendable : Option Bool := none
  delegatable : Option Bool := none
deriving Repr, DecidableEq

/-- `OperationEmitter.prototype.isSourceOp`. -/
def isSourceOp (op : RawOp) : Bool :=
  ["transaction", "origination", "delegation"].contains op.kind

/-- `OperationEmitter.prototype.isFeeOp`. -/
def isFeeOp (op : RawOp) : Bool :=
  ["reveal", "transaction", "origination", "delegation"].contains op.kind

/-- `DEFAULT_FEE.REVEAL`. -/
def DEFAULT_FEE_REVEAL : ℕ := 1420

/-- `DEFAULT_GAS_LIMIT.REVEAL`. -/
def DEFAULT_GAS_LIMIT_REVEAL : ℕ := 10600

/-- `DEFAULT_STORAGE_LIMIT.REVEAL`. -/
def DEFAULT_STORAGE_LIMIT_REVEAL : ℕ := 300

/-- `Protocols.Pt24m4xi`. -/
def Protocols_Pt24m4xi : String := "Pt24m4xiPbLDhVgVfABUjirbmda3yohdN82Sp9FeuAXJ4eV9otd"

/-- `Protocols.PsBABY5H`. -/
def Protocols_PsBABY5H : String := "PsBABY5HQTSkA4297zNHfsZNKtxULfL18y95qb3m53QJiXGmrbU"

/-- `Protocols.PsBabyM1`. -/
def Protocols_PsBabyM1 : String := "PsBabyM1eUXZseaJdmXFApDSBqj8YBfwELoxZHHW77EMcAbbwAS"

/-- The protocol-hash table entry `protocols['005']`. -/
def protocols005 : List String := [Protocols_PsBABY5H, Protocols_PsBabyM1]

/-- `Context.prototype.isAnyProtocolActive`: when the context holds a protocol
hint it is matched against the candidate list, otherwise the head metadata's
`next_protocol` is. -/
def isAnyProtocolActive (proto : Option String) (nextProtocol : String)
    (protocol : List String) : Bool :=
  match proto with
  | some p => protocol.contains p
  | none => protocol.contains nextProtocol

/-- Result of `rpc.getManagerKey`: `null`/`undefined`, a bare key string
(protocol 005 shape), or an object with an optional `key` field (protocol 004
shape). -/
inductive ManagerKey where
  | noKey : ManagerKey
  | keyStr : String → ManagerKey
  | keyObj : Option String → ManagerKey
deriving Repr, DecidableEq

/-- The `haveManager` truthiness test in `prepareOperation`:
`manager && typeof manager === 'object' ? !!manager.key : !!manager`. -/
def haveManager : ManagerKey → Bool
  | .noKey => false
  | .keyStr s => !(s == "")
  | .keyObj none => false
  | .keyObj (some k) => !(k == "")

/-- Error message thrown by `constructOps` for a KT1 transaction source under
protocol generation 005. -/
def kt1ErrorMessage : String :=
  "KT1 addresses are not supported as source in " ++ Protocols_PsBabyM1

/-- The source-defaulting step of `constructOps`: a source-bearing content
with no explicit source gets the resolved public key hash. -/
def applySourceDefault (publicKeyHash : String) (op : RawOp) : RawOp :=
  if isSourceOp op ∧ op.source = none then { op with source := some publicKeyHash }
  else op

/-- The fee-normalisation step of `constructOps`: a fee-bearing content gets
string fee, gas limit and storage limit (defaulting to `'0'`) and the next
counter; other contents are untouched. -/
def applyFeeDefaults (counter : ℕ) (op constructedOp : RawOp) : RawOp × ℕ :=
  if isFeeOp op then
    ({ constructedOp with
        fee := some (op.fee.getD "0"),
        gas_limit := some (op.gas_limit.getD "0"),
        storage_limit := some (op.storage_limit.getD "0"),
        counter := some (toString (counter + 1)) }, counter + 1)
  else (constructedOp, counter)

/-- The protocol-005 field stripping step of `constructOps`:
`manager_pubkey`, `spendable` and `delegatable` are deleted when the 005
generation is active. -/
def applyProto005Strip (proto005 : Bool) (op : RawOp) : RawOp :=
  if proto005 then
    { op with manager_pubkey := none, spendable := none, delegatable := none }
  else op

/-- The `source.toLowerCase().startsWith('kt1')` test of `constructOps`,
written on the string's character list (lowercase each character, compare the
first three with `kt1`), which is the same test as the byte-position
`String.startsWith` but reduces in the kernel. -/
def startsWithKt1 (s : String) : Bool :=
  ((s.data.map Char.toLower).take 3) == "kt1".data

/-- One step of the `constructOps` mapping inside `prepareOperation`: default
the source of source-bearing contents, default and stringify fee fields and
assign the next counter for fee-bearing contents, reject KT1 transaction
sources under protocol 005, and strip the 005-obsoleted fields. The
stringification of `balance`/`amount` is the identity on the pre-stringified
field model. -/
def constructOp (publicKeyHash : String) (proto005 : Bool) (counter : ℕ)
    (op : RawOp) : Except String (RawOp × ℕ) :=
  let constructedOp := applySourceDefault publicKeyHash op
  let next := applyFeeDefaults counter op constructedOp
  if op.kind = "transaction" ∧ proto005
      ∧ startsWithKt1 (next.1.source.getD "") then
    .error kt1ErrorMessage
  else
    .ok (applyProto005Strip proto005 next.1, next.2)

/-- The `constructOps` closure: map `constructOp` over the contents, threading
the per-account counter left to right. -/
def constructOps (publicKeyHash : String) (proto005 : Bool) :
    ℕ → List RawOp → Except String (List RawOp × ℕ)
  | counter, [] => .ok ([], counter)
  | counter, op :: rest => do
    let (op2, counter2) ← constructOp publicKeyHash proto005 counter op
    let (rest2, counter3) ← constructOps publicKeyHash proto005 counter2 rest
    pure (op2 :: rest2, counter3)

/-- The synthetic reveal content pushed to the front of the contents when the
account's manager key is unset. -/
def revealOp (publicKey publicKeyHash : String) : RawOp :=
  { kind := "reveal",
    fee := some (toString DEFAULT_FEE_REVEAL),
    public_key := some publicKey,
    source := some publicKeyHash,
    gas_limit := some (toString DEFAULT_GAS_LIMIT_REVEAL),
    storage_limit := some (toString DEFAULT_STORAGE_LIMIT_REVEAL) }

/-- The `opOb` record returned by `prepareOperation`. -/
structure PreparedOpOb where
  branch : String
  contents : List RawOp
  protocol : String
deriving Repr, DecidableEq

/-- Return value of `prepareOperation`: the operation group plus the parsed
counter baseline. -/
structure PreparedOperation where
  opOb : PreparedOpOb
  counter : ℕ
deriving Repr, DecidableEq

/-- Results of the collaborator round-trips made by `prepareOperation` for the
resolved source account, together with the signer data and the context's
protocol hint. -/
structure PrepareEnv where
  signerPkh : String
  signerPublicKey : String
  rpcCounter : ℕ
  managerKey : ManagerKey
  headHash : String
  nextProtocol : String
  proto : Option String := none
deriving Repr, DecidableEq

/-- Source resolution at the top of `prepareOperation`: a truthy explicit
source wins, otherwise the signer's public key hash is used. -/
def resolveSource (env : PrepareEnv) (source : Option String) : String :=
  match source with
  | some s => if s = "" then env.signerPkh else s
  | none => env.signerPkh

/-- `OperationEmitter.prototype.prepareOperation`: resolve the source, fetch
counter and manager key only when some content is source-bearing, prepend a
synthetic reveal when the manager key is unset, then run `constructOps` from
the fetched counter baseline. -/
def prepareOperation (env : PrepareEnv) (operation : List RawOp)
    (source : Option String) : Except String PreparedOperation :=
  let ops := operation
  let publicKeyHash := resolveSource env source
  let requiresReveal := ops.any isSourceOp
  let headCounter : Option ℕ :=
    if requiresReveal then some env.rpcCounter else none
  let haveManagerB :=
    if requiresReveal then haveManager env.managerKey else false
  let ops :=
    if requiresReveal ∧ haveManagerB = false then
      revealOp env.signerPublicKey publicKeyHash :: ops
    else ops
  let counter := headCounter.getD 0
  let proto005 := isAnyProtocolActive env.proto env.nextProtocol protocols005
  match constructOps publicKeyHash proto005 counter ops with
  | .error e => .error e
  | .ok (contents, _) =>
    .ok { opOb := { branch := env.headHash, contents := contents,
                    protocol := env.nextProtocol },
          counter := counter }

/-- `getDecimal` from the unit formatter. -/
def getDecimal : String → ℕ
  | "tz" => 6
  | "mtz" => 3
  | _ => 0

/-- The `format` unit conversion: multiply by the source unit's decimal power
and divide by the target unit's (exact decimal arithmetic on `BigNumber`). -/
def formatUnits (fromUnit toUnit : String) (amount : ℚ) : ℚ :=
  amount * 10 ^ getDecimal fromUnit / 10 ^ getDecimal toUnit

/-- `MINIMAL_FEE_MUTEZ`. -/
def MINIMAL_FEE_MUTEZ : ℚ := 100

/-- `MINIMAL_FEE_PER_BYTE_MUTEZ`. -/
def MINIMAL_FEE_PER_BYTE_MUTEZ : ℚ := 1

/-- `MINIMAL_FEE_PER_STORAGE_BYTE_MUTEZ`. -/
def MINIMAL_FEE_PER_STORAGE_BYTE_MUTEZ : ℚ := 1000

/-- `MINIMAL_FEE_PER_GAS_MUTEZ` (the source literal `0.1`). -/
def MINIMAL_FEE_PER_GAS_MUTEZ : ℚ := 1 / 10

/-- `GAS_BUFFER`. -/
def GAS_BUFFER : ℚ := 100

/-- The `Estimate` value object: raw gas limit, raw storage limit, operation
byte size and base fee, exactly the constructor arguments of the source
class. -/
structure Estimate where
  gasLimitRaw : ℚ
  storageLimitRaw : ℚ
  opSize : ℚ
  baseFeeMutez : ℚ := MINIMAL_FEE_MUTEZ
deriving Repr, DecidableEq

/-- `Estimate.prototype.roundUp` (`Math.ceil`). -/
def roundUp (nanotez : ℚ) : ℤ := Int.ceil nanotez

/-- `Estimate` getter `storageLimit`. -/
def Estimate.storageLimit (e : Estimate) : ℚ :=
  let limit := max e.storageLimitRaw 0
  if limit > 0 then limit else 0

/-- `Estimate` getter `gasLimit`. -/
def Estimate.gasLimit (e : Estimate) : ℚ :=
  e.gasLimitRaw + GAS_BUFFER

/-- `Estimate` getter `operationFeeMutez`. -/
def Estimate.operationFeeMutez (e : Estimate) : ℚ :=
  e.gasLimit * MINIMAL_FEE_PER_GAS_MUTEZ + e.opSize * MINIMAL_FEE_PER_BYTE_MUTEZ

/-- `Estimate` getter `burnFeeMutez`. -/
def Estimate.burnFeeMutez (e : Estimate) : ℤ :=
  roundUp (e.storageLimit * MINIMAL_FEE_PER_STORAGE_BYTE_MUTEZ)

/-- `Estimate` getter `minimalFeeMutez`. -/
def Estimate.minimalFeeMutez (e : Estimate) : ℤ :=
  roundUp (MINIMAL_FEE_MUTEZ + e.operationFeeMutez)

/-- `Estimate` getter `suggestedFeeMutez`. -/
def Estimate.suggestedFeeMutez (e : Estimate) : ℤ :=
  roundUp (e.operationFeeMutez + MINIMAL_FEE_MUTEZ * 2)

/-- `Estimate` getter `totalCost`. -/
def Estimate.totalCost (e : Estimate) : ℤ :=
  e.minimalFeeMutez + e.burnFeeMutez

/-- The `metadata.operation_result` payload of one preapply content; error
payloads are abstracted to strings. -/
structure PreapplyOperationResult where
  status : String
  errors : List String := []
deriving Repr, DecidableEq

/-- The `metadata` field of one preapply content. -/
structure PreapplyMetadata where
  operation_result : Option PreapplyOperationResult := none
deriving Repr, DecidableEq

/-- One content entry of a preapply result group; `metadata := none` models a
content without a `metadata` field. -/
structure PreapplyContent where
  metadata : Option PreapplyMetadata := none
deriving Repr, DecidableEq

/-- One result group returned by `rpc.preapplyOperations`. -/
structure PreapplyResult where
  contents : List PreapplyContent
deriving Repr, DecidableEq

/-- Errors raised by `inject`: a non-array preapply response, or the
aggregated `Operation Failed` error carrying every collected `errors`
payload. -/
inductive InjectError where
  | rpcFail : InjectError
  | operationFailed : List String → InjectError
deriving Repr, DecidableEq

/-- Successful return value of `inject`. -/
structure InjectedResult where
  hash : String
  opbytes : String
  signature : String
  opResponse : List PreapplyContent
deriving Repr, DecidableEq

/-- The failed-status test of the `inject` loop:
`'metadata' in content && metadata.operation_result !== undefined && status === 'failed'`. -/
def contentFailed (c : PreapplyContent) : Bool :=
  match c.metadata with
  | some m =>
    match m.operation_result with
    | some r => r.status == "failed"
    | none => false
  | none => false

/-- The `errors` array of a content's operation result (empty when absent). -/
def resultErrors (c : PreapplyContent) : List String :=
  match c.metadata with
  | some m =>
    match m.operation_result with
    | some r => r.errors
    | none => []
  | none => []

/-- Error aggregation of the `inject` loop over every content of every result
group, in visit order. -/
def collectErrors (results : List PreapplyResult) : List String :=
  (results.flatMap fun r => r.contents).flatMap fun c =>
    if contentFailed c then resultErrors c else []

/-- `OperationEmitter.prototype.inject`, parameterised by the external
injector collaborator (signed bytes to operation hash). A `none` preapply
response models the non-array case. -/
def inject (injector : String → String) (results : Option (List PreapplyResult))
    (prefixSig sbytes : String) : Except InjectError InjectedResult :=
  match results with
  | none => .error .rpcFail
  | some rs =>
    let opResponse := rs.flatMap fun r => r.contents
    let errors := collectErrors rs
    if errors.length ≠ 0 then
      .error (.operationFailed errors)
    else
      .ok { hash := injector sbytes, opbytes := sbytes,
            signature := prefixSig, opResponse := opResponse }

/-- Errors of the confirmation polling stream: the two configuration errors
thrown before any tick, and the tick-budget timeout. -/
inductive PollingError where
  | timeoutMustBeMoreThanZero : PollingError
  | intervalMustBeMoreThanZero : PollingError
  | confirmationPollingTimedOut : PollingError
deriving Repr, DecidableEq

/-- Per-call polling configuration (seconds, JS numbers). -/
structure PollingConfig where
  timeout : ℚ
  interval : ℚ
deriving Repr, DecidableEq

/-- The configuration validation at the head of `polling$`. -/
def checkPollingConfig (c : PollingConfig) : Option PollingError :=
  if c.timeout ≤ 0 then some .timeoutMustBeMoreThanZero
  else if c.interval ≤ 0 then some .intervalMustBeMoreThanZero
  else none

/-- The tick budget `timeoutAt = Math.ceil(timeout / interval) + 1`. -/
def timeoutAt (c : PollingConfig) : ℤ :=
  Int.ceil (c.timeout / c.interval) + 1

/-- Outcome of running `n` ticks of `polling$`: the configuration is checked
before the first tick, each tick increments the count, and a count exceeding
`timeoutAt` raises the polling timeout. -/
def pollingTicks (c : PollingConfig) : ℕ → Except PollingError ℕ
  | 0 =>
    match checkPollingConfig c with
    | some e => .error e
    | none => .ok 0
  | n + 1 =>
    match pollingTicks c n with
    | .error e => .error e
    | .ok count =>
      if (count + 1 : ℤ) > timeoutAt c then
        .error .confirmationPollingTimedOut
      else .ok (count + 1)

/-- One operation entry of a block's operation list. -/
structure BlockOp where
  hash : String
deriving Repr, DecidableEq

/-- A head block as consumed by the confirmation tracker: its level and the
four operation-list validation passes. -/
structure Block where
  level : ℤ
  operations : List (List BlockOp)
deriving Repr, DecidableEq

/-- The scan of `confirmed$` over one head: passes are visited from index 3
down to 0 and any entry whose hash matches records the head's level. -/
def blockContainsOpHash (opHash : String) (head : Block) : Bool :=
  ([3, 2, 1, 0] : List ℕ).any fun i =>
    (head.operations.getD i []).any fun op => op.hash == opHash

/-- The confirmation state machine over a sequence of observed heads: while
the operation is unfound each head is scanned (and, once found, the same head
feeds the confirmation filter); once found at level `foundAt`, the first head
whose level is at least `foundAt + conf` resolves to `foundAt + conf`. -/
def confirmationAt (opHash : String) (conf : ℤ) :
    List Block → Option ℤ → Option ℤ
  | [], _ => none
  | head :: rest, some foundAt =>
    if head.level - foundAt ≥ conf then some (foundAt + conf)
    else confirmationAt opHash conf rest (some foundAt)
  | head :: rest, none =>
    if blockContainsOpHash opHash head then
      if head.level - head.level ≥ conf then some (head.level + conf)
      else confirmationAt opHash conf rest (some head.level)
    else confirmationAt opHash conf rest none

/-- The `metadata` field of an operation content as seen by the filter
evaluator. -/
structure FilterOpMetadata where
  delegate : Option String := none
deriving Repr, DecidableEq

/-- An operation content as seen by `sourceFilter`; `none` fields model
absent JS fields. -/
structure FilterOpContent where
  kind : String
  metadata : Option FilterOpMetadata := none
  pkh : Option String := none
  source : Option String := none
deriving Repr, DecidableEq

/-- A source filter node `{source: ...}`. -/
structure SourceFilterNode where
  source : String
deriving Repr, DecidableEq

/-- The `sourceFilter` evaluator: endorsements match the metadata's delegate,
account activations match `pkh` (both requiring a `metadata` field), all
other kinds match their `source` field. -/
def sourceFilter (x : FilterOpContent) (filter : SourceFilterNode) : Bool :=
  if x.kind == "endorsement" then
    x.metadata.isSome && ((x.metadata.bind fun m => m.delegate) == some filter.source)
  else if x.kind == "activate_account" then
    x.metadata.isSome && (x.pkh == some filter.source)
  else
    x.source.isSome && (x.source == some filter.source)

/-- Concrete environment fixture: a revealed implicit account. -/
def wEnv : PrepareEnv :=
  { signerPkh := "tz1faswCTDciRzE4oJ9jn2Vm2dvjeyA9fUzU",
    signerPublicKey := "edpkvS5QFv7KRGfa3b87gg9DBpxSm3NpSwnjhUjNBQrRUUR66F7C9g",
    rpcCounter := 100,
    managerKey := .keyStr "edpkvS5QFv7KRGfa3b87gg9DBpxSm3NpSwnjhUjNBQrRUUR66F7C9g",
    headHash := "BLzGD63HA4RP8Fh5xEtvdQSMKa2WzJMZjQPNVUW4nimjFDL96x8",
    nextProtocol := "Pt24m4xiPbLDhVgVfABUjirbmda3yohdN82Sp9FeuAXJ4eV9otd",
    proto := none }

/-- Concrete environment fixture: the same account before its key reveal. -/
def wEnvUnrevealed : PrepareEnv :=
  { wEnv with managerKey := .noKey }

/-- Concrete transaction content fixture (amount already in mutez). -/
def wTransferOp : RawOp :=
  { kind := "transaction", amount := some "1500000",
    destination := some "tz1KqTpEZ7Yob7QbPE4Hy4Wo8fHG8LhKxZSx" }

/-- Concrete delegation content fixture. -/
def wDelegationOp : RawOp :=
  { kind := "delegation", delegate := some "tz1KqTpEZ7Yob7QbPE4Hy4Wo8fHG8LhKxZSx" }

/-- Expected prepared group for the two-content fixture batch against the
revealed account. -/
def wRes1 : PreparedOperation :=
  { opOb :=
    { branch := wEnv.headHash,
      contents :=
        [{ kind := "transaction", fee := some "0", gas_limit := some "0",
           storage_limit := some "0", counter := some "101",
           source := some wEnv.signerPkh, amount := some "1500000",
           destination := some "tz1KqTpEZ7Yob7QbPE4Hy4Wo8fHG8LhKxZSx" },
         { kind := "delegation", fee := some "0", gas_limit := some "0",
           storage_limit := some "0", counter := some "102",
           source := some wEnv.signerPkh,
           delegate := some "tz1KqTpEZ7Yob7QbPE4Hy4Wo8fHG8LhKxZSx" }],
      protocol := wEnv.nextProtocol },
    counter := 100 }

/-- Expected prepared group for the transfer fixture against the unrevealed
account: a synthetic reveal is prepended and takes the first counter. -/
def wRes2 : PreparedOperation :=
  { opOb :=
    { branch := wEnv.headHash,
      contents :=
        [{ kind := "reveal", fee := some "1420", gas_limit := some "10600",
           storage_limit := some "300", counter := some "101",
           source := some wEnv.signerPkh,
           public_key := some wEnv.signerPublicKey },
         { kind := "transaction", fee := some "0", gas_limit := some "0",
           storage_limit := some "0", counter := some "102",
           source := some wEnv.signerPkh, amount := some "1500000",
           destination := some "tz1KqTpEZ7Yob7QbPE4Hy4Wo8fHG8LhKxZSx" }],
      protocol := wEnv.nextProtocol },
    counter := 100 }

/-- Concrete environment fixture: the revealed account while the 005 protocol
generation is the active hint. -/
def wEnv005 : PrepareEnv :=
  { wEnv with proto := some Protocols_PsBABY5H }

/-- Concrete transaction fixture whose explicit source is a smart-contract
address. -/
def wKt1Tx : RawOp :=
  { kind := "transaction", amount := some "1",
    source := some "KT1CfFBaLoUCiEtQL4gBzzeMMbUc5STP1s45",
    destination := some "tz1KqTpEZ7Yob7QbPE4Hy4Wo8fHG8LhKxZSx" }

/-- Concrete preapply content fixture: status `failed` with an empty errors
array. -/
def failedNoErrorsContent : PreapplyContent :=
  { metadata := some ({ operation_result := some ({ status := "failed", errors := [] } : PreapplyOperationResult) } : PreapplyMetadata) }

/-- Concrete preapply content fixture: status `failed` with two error
payloads. -/
def failedWithErrorsContent : PreapplyContent :=
  { metadata := some ({ operation_result := some ({ status := "failed", errors := ["errA", "errB"] } : PreapplyOperationResult) } : PreapplyMetadata) }

/-- Concrete head block fixture: the tracked hash sits in pass index 3 of the
block at level 5. -/
def wBlockFound : Block :=
  { level := 5, operations := [[], [], [], [{ hash := "opHashFixture" }]] }

/-- Concrete head block fixture: a later head at level 7 without the hash. -/
def wBlockLater : Block :=
  { level := 7, operations := [[], [], [], []] }

theorem isFeeOp_of_kind_eq {op1 op2 : RawOp} (h : op1.kind = op2.kind) :
    isFeeOp op1 = isFeeOp op2 := by
  simp [isFeeOp, h]

theorem applySourceDefault_kind (pkh : String) (op : RawOp) :
    (applySourceDefault pkh op).kind = op.kind := by
  unfold applySourceDefault; split <;> rfl

theorem applySourceDefault_counter (pkh : String) (op : RawOp) :
    (applySourceDefault pkh op).counter = op.counter := by
  unfold applySourceDefault; split <;> rfl

theorem applyProto005Strip_kind (p5 : Bool) (op : RawOp) :
    (applyProto005Strip p5 op).kind = op.kind := by
  unfold applyProto005Strip; split <;> rfl

theorem applyProto005Strip_counter (p5 : Bool) (op : RawOp) :
    (applyProto005Strip p5 op).counter = op.counter := by
  unfold applyProto005Strip; split <;> rfl

theorem applyFeeDefaults_spec (c : ℕ) (op cop : RawOp) :
    (applyFeeDefaults c op cop).1.kind = cop.kind ∧
    (isFeeOp op = true →
      (applyFeeDefaults c op cop).1.counter = some (toString (c + 1)) ∧
      (applyFeeDefaults c op cop).2 = c + 1) ∧
    (isFeeOp op = false →
      (applyFeeDefaults c op cop).1.counter = cop.counter ∧
      (applyFeeDefaults c op cop).2 = c) := by
  unfold applyFeeDefaults
  by_cases hf : isFeeOp op = true <;> simp [hf]

theorem constructOp_ok_spec (pkh : String) (p5 : Bool) (c : ℕ) (op op2 : RawOp)
    (c2 : ℕ) (h : constructOp pkh p5 c op = .ok (op2, c2)) :
    op2.kind = op.kind ∧
    (isFeeOp op = true → op2.counter = some (toString (c + 1)) ∧ c2 = c + 1) ∧
    (isFeeOp op = false → op2.counter = op.counter ∧ c2 = c) := by
  simp only [constructOp] at h
  split at h
  · cases h
  · obtain ⟨hop2, hc2⟩ := Prod.mk.injEq _ _ _ _ ▸ (Except.ok.injEq _ _).mp h
    obtain ⟨hk, hfee, hnofee⟩ :=
      applyFeeDefaults_spec c op (applySourceDefault pkh op)
    subst hop2 hc2
    refine ⟨?_, ?_, ?_⟩
    · rw [applyProto005Strip_kind, hk, applySourceDefault_kind]
    · intro hf
      exact ⟨(applyProto005Strip_counter _ _).trans (hfee hf).1, (hfee hf).2⟩
    · intro hf
      refine ⟨?_, (hnofee hf).2⟩
      rw [applyProto005Strip_counter, (hnofee hf).1, applySourceDefault_counter]

theorem constructOp_error_msg (pkh : String) (p5 : Bool) (c : ℕ) (op : RawOp)
    (e : String) (h : constructOp pkh p5 c op = .error e) : e = kt1ErrorMessage := by
  simp only [constructOp] at h
  split at h
  · exact (Except.error.injEq _ _).mp h |>.symm
  · cases h

theorem constructOps_ok_spec (pkh : String) (p5 : Bool) :
    ∀ (ops : List RawOp) (c : ℕ) (outs : List RawOp) (c2 : ℕ),
      constructOps pkh p5 c ops = .ok (outs, c2) →
      ((outs.filter fun o => isFeeOp o).map fun o => o.counter)
          = ((List.range (ops.filter (fun o => isFeeOp o)).length).map
              fun i => some (toString (c + 1 + i)))
        ∧ c2 = c + (ops.filter (fun o => isFeeOp o)).length
        ∧ outs.length = ops.length := by
  intro ops
  induction ops with
  | nil =>
    intro c outs c2 h
    simp only [constructOps] at h
    obtain ⟨h1, h2⟩ := (Except.ok.injEq _ _).mp h |>.symm ▸ Prod.mk.injEq _ _ _ _ |>.mp rfl
    cases h
    simp
  | cons op rest ih =>
    intro c outs c2 h
    simp only [constructOps, bind, Except.bind] at h
    cases hc : constructOp pkh p5 c op with
    | error e => rw [hc] at h; cases h
    | ok v =>
      obtain ⟨op2, cmid⟩ := v
      rw [hc] at h
      dsimp only at h
      cases hr : constructOps pkh p5 cmid rest with
      | error e => rw [hr] at h; cases h
      | ok w =>
        obtain ⟨outs', c3⟩ := w
        rw [hr] at h
        simp only [pure, Except.pure, Except.ok.injEq, Prod.mk.injEq] at h
        obtain ⟨⟨houts, hc2⟩⟩ := And.intro h trivial
        obtain ⟨hkind, hfee, hnofee⟩ := constructOp_ok_spec pkh p5 c op op2 cmid hc
        obtain ⟨ihmap, ihc, ihlen⟩ := ih cmid outs' c3 hr
        subst houts hc2
        by_cases hf : isFeeOp op = true
        · obtain ⟨hcnt, hcm⟩ := hfee hf
          subst hcm
          have hf2 : isFeeOp op2 = true := (isFeeOp_of_kind_eq hkind).trans hf
          have hfl : (op :: rest).filter (fun o => isFeeOp o)
              = op :: rest.filter (fun o => isFeeOp o) := by
            simp [List.filter_cons, hf]
          have hfl2 : (op2 :: outs').filter (fun o => isFeeOp o)
              = op2 :: outs'.filter (fun o => isFeeOp o) := by
            simp [List.filter_cons, hf2]
          refine ⟨?_, ?_, ?_⟩
          · rw [hfl, hfl2, List.map_cons, List.length_cons, List.range_succ_eq_map,
              List.map_cons, List.map_map, hcnt, ihmap]
            congr 1
            apply List.map_congr_left
            intro i _
            simp only [Function.comp_apply]
            congr 2
            omega
          · rw [hfl, List.length_cons]
            omega
          · simp [ihlen]
        · have hf' : isFeeOp op = false := by simpa using hf
          obtain ⟨hcnt, hcm⟩ := hnofee hf'
          subst hcm
          have hf2 : isFeeOp op2 = false := (isFeeOp_of_kind_eq hkind).trans hf'
          have hfl : (op :: rest).filter (fun o => isFeeOp o)
              = rest.filter (fun o => isFeeOp o) := by
            simp [List.filter_cons, hf']
          have hfl2 : (op2 :: outs').filter (fun o => isFeeOp o)
              = outs'.filter (fun o => isFeeOp o) := by
            simp [List.filter_cons, hf2]
          refine ⟨?_, ?_, ?_⟩
          · rw [hfl, hfl2, ihmap]
          · rw [hfl]
            exact ihc
          · simp [ihlen]

theorem prepareOperation_ok_constructOps (env : PrepareEnv) (operation : List RawOp)
    (source : Option String) (res : PreparedOperation)
    (hsrc : operation.any isSourceOp = true)
    (hok : prepareOperation env operation source = .ok res) :
    ∃ contents cfin,
      constructOps (resolveSource env source)
          (isAnyProtocolActive env.proto env.nextProtocol protocols005)
          env.rpcCounter
          (if haveManager env.managerKey = false then
            revealOp env.signerPublicKey (resolveSource env source) :: operation
          else operation)
        = .ok (contents, cfin)
      ∧ res = { opOb := { branch := env.headHash, contents := contents,
                          protocol := env.nextProtocol },
                counter := env.rpcCounter } := by
  simp only [prepareOperation, hsrc, eq_self_iff_true, if_true, true_and,
    Option.getD_some] at hok
  by_cases hmk : haveManager env.managerKey = false
  · rw [if_pos hmk] at hok ⊢
    cases hco : constructOps (resolveSource env source)
        (isAnyProtocolActive env.proto env.nextProtocol protocols005)
        env.rpcCounter
        (revealOp env.signerPublicKey (resolveSource env source) :: operation) with
    | error e => rw [hco] at hok; cases hok
    | ok w =>
      obtain ⟨contents, cfin⟩ := w
      rw [hco] at hok
      exact ⟨contents, cfin, rfl, ((Except.ok.injEq _ _).mp hok).symm⟩
  · rw [if_neg hmk] at hok ⊢
    cases hco : constructOps (resolveSource env source)
        (isAnyProtocolActive env.proto env.nextProtocol protocols005)
        env.rpcCounter operation with
    | error e => rw [hco] at hok; cases hok
    | ok w =>
      obtain ⟨contents, cfin⟩ := w
      rw [hco] at hok
      exact ⟨contents, cfin, rfl, ((Except.ok.injEq _ _).mp hok).symm⟩

/-- Claim C1: in every successful `prepareOperation` call whose contents hold a
source-bearing entry (so the counter baseline is fetched from the source
account), the counters of the fee-bearing entries of the produced contents,
read left to right, are exactly the decimal strings of `baseline + 1` up to
`baseline + n` (`n` the number of fee-bearing entries), and each counter is
strictly greater than the previous one. -/
theorem prepareOperation_counters (env : PrepareEnv) (operation : List RawOp)
    (source : Option String) (res : PreparedOperation)
    (hsrc : operation.any isSourceOp = true)
    (hok : prepareOperation env operation source = .ok res) :
    ((res.opOb.contents.filter fun o => isFeeOp o).map fun o => o.counter)
        = ((List.range (res.opOb.contents.filter fun o => isFeeOp o).length).map
            fun i => some (toString (env.rpcCounter + 1 + i)))
    ∧ List.Pairwise
        (fun a b => ∃ x y : ℕ, a = some (toString x) ∧ b = some (toString y) ∧ x < y)
        ((res.opOb.contents.filter fun o => isFeeOp o).map fun o => o.counter) := by
  obtain ⟨contents, cfin, hco, hres⟩ :=
    prepareOperation_ok_constructOps env operation source res hsrc hok
  obtain ⟨hmap, hcfin, hlen⟩ := constructOps_ok_spec _ _ _ _ _ _ hco
  have hres2 : res.opOb.contents = contents := by rw [hres]
  have hlenEq : (contents.filter fun o => isFeeOp o).length
      = ((if haveManager env.managerKey = false then
            revealOp env.signerPublicKey (resolveSource env source) :: operation
          else operation).filter fun o => isFeeOp o).length := by
    have := congrArg List.length hmap
    simpa using this
  constructor
  · rw [hres2, hlenEq, hmap]
  · rw [hres2, hmap]
    exact List.pairwise_map.mpr ((List.pairwise_lt_range _).imp
      fun hij => ⟨_, _, rfl, rfl, by omega⟩)

/-- Witness for claim C1 at the concrete two-content fixture batch. -/
theorem prepareOperation_counters_witness :
    ([wTransferOp, wDelegationOp].any isSourceOp = true)
    ∧ (((wRes1.opOb.contents.filter fun o => isFeeOp o).map fun o => o.counter)
        = ((List.range (wRes1.opOb.contents.filter fun o => isFeeOp o).length).map
            fun i => some (toString (wEnv.rpcCounter + 1 + i)))) :=
  ⟨by decide,
   (prepareOperation_counters wEnv [wTransferOp, wDelegationOp] none wRes1
      (by decide) (by rfl)).1⟩

theorem constructOps_cons_elim (pkh : String) (p5 : Bool) (c : ℕ) (op : RawOp)
    (rest : List RawOp) (outs : List RawOp) (c2 : ℕ)
    (h : constructOps pkh p5 c (op :: rest) = .ok (outs, c2)) :
    ∃ op2 cmid outs',
      constructOp pkh p5 c op = .ok (op2, cmid)
      ∧ constructOps pkh p5 cmid rest = .ok (outs', c2)
      ∧ outs = op2 :: outs' := by
  simp only [constructOps, bind, Except.bind] at h
  cases hc : constructOp pkh p5 c op with
  | error e => rw [hc] at h; cases h
  | ok v =>
    obtain ⟨op2, cmid⟩ := v
    rw [hc] at h
    dsimp only at h
    cases hr : constructOps pkh p5 cmid rest with
    | error e => rw [hr] at h; cases h
    | ok w =>
      obtain ⟨outs', c3⟩ := w
      rw [hr] at h
      simp only [pure, Except.pure] at h
      injection h with h1
      injection h1 with ha hb
      subst ha
      subst hb
      exact ⟨op2, cmid, outs', hc ▸ rfl, hr, rfl⟩

theorem constructOp_revealOp (pkh pk : String) (p5 : Bool) (c : ℕ) :
    constructOp pkh p5 c (revealOp pk pkh)
      = .ok ({ kind := "reveal", fee := some (toString DEFAULT_FEE_REVEAL),
               gas_limit := some (toString DEFAULT_GAS_LIMIT_REVEAL),
               storage_limit := some (toString DEFAULT_STORAGE_LIMIT_REVEAL),
               counter := some (toString (c + 1)),
               source := some pkh, public_key := some pk }, c + 1) := by
  cases p5 <;> rfl

theorem prepareOperation_ok_constructOps_nosrc (env : PrepareEnv)
    (operation : List RawOp) (source : Option String) (res : PreparedOperation)
    (hsrc : operation.any isSourceOp = false)
    (hok : prepareOperation env operation source = .ok res) :
    ∃ contents cfin,
      constructOps (resolveSource env source)
          (isAnyProtocolActive env.proto env.nextProtocol protocols005)
          0 operation
        = .ok (contents, cfin)
      ∧ res = { opOb := { branch := env.headHash, contents := contents,
                          protocol := env.nextProtocol },
                counter := 0 } := by
  simp only [prepareOperation, hsrc, Bool.false_eq_true, if_false, false_and,
    Option.getD_none] at hok
  cases hco : constructOps (resolveSource env source)
      (isAnyProtocolActive env.proto env.nextProtocol protocols005)
      0 operation with
  | error e => rw [hco] at hok; cases hok
  | ok w =>
    obtain ⟨contents, cfin⟩ := w
    rw [hco] at hok
    exact ⟨contents, cfin, rfl, ((Except.ok.injEq _ _).mp hok).symm⟩

/-- Claim C2: a successful `prepareOperation` call prepends the synthetic
reveal content (signer public key, resolved source, default reveal
fee/gas/storage constants) as first entry of the produced contents exactly
when some input content is source-bearing and the fetched manager key is
unset; with a set manager key (or no source-bearing content) the produced
contents hold no added entry. -/
theorem prepareOperation_reveal_prepend (env : PrepareEnv) (operation : List RawOp)
    (source : Option String) (res : PreparedOperation)
    (hok : prepareOperation env operation source = .ok res) :
    ((operation.any isSourceOp = true ∧ haveManager env.managerKey = false) →
      res.opOb.contents.head? = some
        { kind := "reveal", fee := some (toString DEFAULT_FEE_REVEAL),
          gas_limit := some (toString DEFAULT_GAS_LIMIT_REVEAL),
          storage_limit := some (toString DEFAULT_STORAGE_LIMIT_REVEAL),
          counter := some (toString (env.rpcCounter + 1)),
          source := some (resolveSource env source),
          public_key := some env.signerPublicKey })
    ∧ (res.opOb.contents.length = operation.length + 1
        ↔ (operation.any isSourceOp = true ∧ haveManager env.managerKey = false)) := by
  by_cases hsrc : operation.any isSourceOp = true
  · by_cases hmk : haveManager env.managerKey = false
    · obtain ⟨contents, cfin, hco, hres⟩ :=
        prepareOperation_ok_constructOps env operation source res hsrc hok
      rw [if_pos hmk] at hco
      obtain ⟨op2, cmid, outs', hrev, hrest, houts⟩ :=
        constructOps_cons_elim _ _ _ _ _ _ _ hco
      obtain ⟨hop2, hcmid⟩ :=
        Prod.mk.injEq _ _ _ _ ▸ (Except.ok.injEq _ _).mp
          ((constructOp_revealOp (resolveSource env source)
            env.signerPublicKey _ env.rpcCounter).symm.trans hrev)
      obtain ⟨hmap, hc2, hlen⟩ := constructOps_ok_spec _ _ _ _ _ _ hco
      constructor
      · intro _
        rw [hres]
        simp only [houts, List.head?_cons, hop2]
      · rw [hres]
        simp only [hlen, List.length_cons]
        exact iff_of_true trivial ⟨hsrc, hmk⟩
    · obtain ⟨contents, cfin, hco, hres⟩ :=
        prepareOperation_ok_constructOps env operation source res hsrc hok
      rw [if_neg hmk] at hco
      obtain ⟨hmap, hc2, hlen⟩ := constructOps_ok_spec _ _ _ _ _ _ hco
      constructor
      · intro hcond
        exact absurd hcond.2 hmk
      · rw [hres]
        simp only [hlen]
        constructor
        · intro habs
          omega
        · intro hcond
          exact absurd hcond.2 hmk
  · obtain ⟨contents, cfin, hco, hres⟩ :=
      prepareOperation_ok_constructOps_nosrc env operation source res
        (by simpa using hsrc) hok
    obtain ⟨hmap, hc2, hlen⟩ := constructOps_ok_spec _ _ _ _ _ _ hco
    constructor
    · intro hcond
      exact absurd hcond.1 hsrc
    · rw [hres]
      simp only [hlen]
      constructor
      · intro habs
        omega
      · intro hcond
        exact absurd hcond.1 hsrc

/-- Witness for claim C2 at the concrete unrevealed-account fixture. -/
theorem prepareOperation_reveal_prepend_witness :
    wRes2.opOb.contents.head? = some
      { kind := "reveal", fee := some (toString DEFAULT_FEE_REVEAL),
        gas_limit := some (toString DEFAULT_GAS_LIMIT_REVEAL),
        storage_limit := some (toString DEFAULT_STORAGE_LIMIT_REVEAL),
        counter := some (toString (wEnvUnrevealed.rpcCounter + 1)),
        source := some (resolveSource wEnvUnrevealed none),
        public_key := some wEnvUnrevealed.signerPublicKey } :=
  (prepareOperation_reveal_prepend wEnvUnrevealed [wTransferOp] none wRes2
    (by rfl)).1 (by decide)

theorem constructOp_bad_tx (pkh : String) (c : ℕ) (op : RawOp)
    (hk : op.kind = "transaction")
    (hs : startsWithKt1 (op.source.getD pkh) = true) :
    constructOp pkh true c op = .error kt1ErrorMessage := by
  have hsrcop : isSourceOp op = true := by simp [isSourceOp, hk]
  have hres : ((applyFeeDefaults c op (applySourceDefault pkh op)).1.source.getD "")
      = op.source.getD pkh := by
    cases hso : op.source with
    | none =>
      simp [applyFeeDefaults, applySourceDefault, hsrcop, hso, isFeeOp, hk]
    | some s =>
      simp [applyFeeDefaults, applySourceDefault, hsrcop, hso, isFeeOp, hk]
  have hcond : startsWithKt1
      ((applyFeeDefaults c op (applySourceDefault pkh op)).1.source.getD "")
      = true := by
    rw [hres]; exact hs
  simp only [constructOp]
  rw [if_pos ⟨hk, by trivial, hcond⟩]

theorem constructOps_bad_tx (pkh : String) (c : ℕ) (ops : List RawOp)
    (hbad : ∃ op ∈ ops, op.kind = "transaction"
      ∧ startsWithKt1 (op.source.getD pkh) = true) :
    constructOps pkh true c ops = .error kt1ErrorMessage := by
  induction ops generalizing c with
  | nil => obtain ⟨op, hmem, _⟩ := hbad; cases hmem
  | cons op rest ih =>
    obtain ⟨bad, hmem, hk, hs⟩ := hbad
    rcases List.mem_cons.mp hmem with hcase | hcase
    · subst hcase
      simp only [constructOps, bind, Except.bind]
      rw [constructOp_bad_tx pkh c bad hk hs]
    · cases hc : constructOp pkh true c op with
      | error e =>
        simp only [constructOps, bind, Except.bind]
        rw [hc, constructOp_error_msg pkh true c op e hc]
      | ok v =>
        obtain ⟨op2, cmid⟩ := v
        simp only [constructOps, bind, Except.bind]
        rw [hc]
        dsimp only
        rw [ih cmid ⟨bad, hcase, hk, hs⟩]

/-- Claim C7: when the 005 protocol generation is active, `prepareOperation`
fails with the descriptive KT1 error whenever some transaction content's
resolved source is a smart-contract (KT1) address; no prepared group is
produced, so nothing can be forged, signed or injected from the call. -/
theorem prepareOperation_kt1_rejection (env : PrepareEnv) (operation : List RawOp)
    (source : Option String)
    (hproto : isAnyProtocolActive env.proto env.nextProtocol protocols005 = true)
    (hbad : ∃ op ∈ operation, op.kind = "transaction"
      ∧ startsWithKt1 (op.source.getD (resolveSource env source)) = true) :
    prepareOperation env operation source = .error kt1ErrorMessage := by
  obtain ⟨bad, hmem, hk, hs⟩ := hbad
  have hsrc : operation.any isSourceOp = true :=
    List.any_eq_true.mpr ⟨bad, hmem, by simp [isSourceOp, hk]⟩
  simp only [prepareOperation, hsrc, eq_self_iff_true, if_true, true_and,
    Option.getD_some, hproto]
  by_cases hmk : haveManager env.managerKey = false
  · rw [if_pos hmk,
      constructOps_bad_tx _ _ _ ⟨bad, List.mem_cons_of_mem _ hmem, hk, hs⟩]
  · rw [if_neg hmk, constructOps_bad_tx _ _ _ ⟨bad, hmem, hk, hs⟩]

/-- Witness for claim C7 at the concrete KT1-source transaction fixture. -/
theorem prepareOperation_kt1_rejection_witness :
    prepareOperation wEnv005 [wKt1Tx] none = .error kt1ErrorMessage :=
  prepareOperation_kt1_rejection wEnv005 [wKt1Tx] none (by decide)
    ⟨wKt1Tx, by simp, by decide, by decide⟩

/-- Claim C8: preparing one transaction content of amount 1.5 tz (1500000
mutez under the `tz` to `mutez` unit conversion) with a destination set and no
explicit fee/gas/storage, against an already revealed account, yields exactly
one content carrying the zero fee defaults, counter `baseline + 1` and the
signer's public key hash as source. -/
theorem prepareOperation_transfer_scenario (env : PrepareEnv) (dest : String)
    (hmk : haveManager env.managerKey = true)
    (hkt : startsWithKt1 env.signerPkh = false) :
    formatUnits "tz" "mutez" (3 / 2) = 1500000
    ∧ prepareOperation env
        [{ kind := "transaction", amount := some "1500000",
           destination := some dest }] none
      = .ok { opOb := { branch := env.headHash,
                        contents := [{ kind := "transaction", fee := some "0",
                                       gas_limit := some "0",
                                       storage_limit := some "0",
                                       counter := some (toString (env.rpcCounter + 1)),
                                       source := some env.signerPkh,
                                       amount := some "1500000",
                                       destination := some dest }],
                        protocol := env.nextProtocol },
              counter := env.rpcCounter } := by
  constructor
  · have h1 : getDecimal "tz" = 6 := rfl
    have h2 : getDecimal "mutez" = 0 := rfl
    norm_num [formatUnits, h1, h2]
  · cases hp : isAnyProtocolActive env.proto env.nextProtocol protocols005 <;>
      simp [prepareOperation, constructOps, constructOp, applySourceDefault,
        applyFeeDefaults, applyProto005Strip, isSourceOp, isFeeOp, hmk, hkt, hp,
        bind, Except.bind, pure, Except.pure, resolveSource]

/-- Witness for claim C8 at the concrete revealed-account fixture. -/
theorem prepareOperation_transfer_scenario_witness :
    formatUnits "tz" "mutez" (3 / 2) = 1500000
    ∧ prepareOperation wEnv
        [{ kind := "transaction", amount := some "1500000",
           destination := some "tz1KqTpEZ7Yob7QbPE4Hy4Wo8fHG8LhKxZSx" }] none
      = .ok { opOb := { branch := wEnv.headHash,
                        contents := [{ kind := "transaction", fee := some "0",
                                       gas_limit := some "0",
                                       storage_limit := some "0",
                                       counter := some (toString (wEnv.rpcCounter + 1)),
                                       source := some wEnv.signerPkh,
                                       amount := some "1500000",
                                       destination := some "tz1KqTpEZ7Yob7QbPE4Hy4Wo8fHG8LhKxZSx" }],
                        protocol := wEnv.nextProtocol },
              counter := wEnv.rpcCounter } :=
  prepareOperation_transfer_scenario wEnv "tz1KqTpEZ7Yob7QbPE4Hy4Wo8fHG8LhKxZSx"
    (by decide) (by decide)

/-- Claim C4: for an `Estimate` built from raw gas `g`, raw storage `s` and
byte length `b`: `gasLimit = g + 100`, `storageLimit = max s 0`,
`burnFee = ceil(storageLimit * 1000)`, `operationFee = gasLimit * 0.1 + b * 1`,
`minimalFee = ceil(100 + operationFee)`,
`suggestedFee = ceil(operationFee + 2 * 100)`, and
`totalCost = minimalFee + burnFee`. -/
theorem estimate_derived_formulas (g s b fee : ℚ) :
    (Estimate.mk g s b fee).gasLimit = g + 100
    ∧ (Estimate.mk g s b fee).storageLimit = max s 0
    ∧ (Estimate.mk g s b fee).burnFeeMutez = Int.ceil (max s 0 * 1000)
    ∧ (Estimate.mk g s b fee).operationFeeMutez = (g + 100) * (1 / 10) + b * 1
    ∧ (Estimate.mk g s b fee).minimalFeeMutez
        = Int.ceil (100 + ((g + 100) * (1 / 10) + b * 1))
    ∧ (Estimate.mk g s b fee).suggestedFeeMutez
        = Int.ceil (((g + 100) * (1 / 10) + b * 1) + 2 * 100)
    ∧ (Estimate.mk g s b fee).totalCost
        = (Estimate.mk g s b fee).minimalFeeMutez
          + (Estimate.mk g s b fee).burnFeeMutez := by
  have hstor : (Estimate.mk g s b fee).storageLimit = max s 0 := by
    simp only [Estimate.storageLimit]
    split
    · rfl
    · next h =>
      push_neg at h
      exact (le_antisymm h (le_max_right s 0)).symm
  refine ⟨rfl, hstor, ?_, rfl, rfl, ?_, rfl⟩
  · show roundUp ((Estimate.mk g s b fee).storageLimit
        * MINIMAL_FEE_PER_STORAGE_BYTE_MUTEZ) = _
    rw [hstor]
    rfl
  · show Int.ceil ((Estimate.mk g s b fee).operationFeeMutez
        + MINIMAL_FEE_MUTEZ * 2) = _
    congr 1
    show (g + 100) * (1 / 10 : ℚ) + b * 1 + (100 : ℚ) * 2 = _
    ring

/-- Claim C10: for every `Estimate`, whatever its gas, storage, byte-size and
base-fee inputs, the suggested fee exceeds the minimal fee by exactly one
base-fee unit of 100 mutez. -/
theorem estimate_suggested_minimal_gap (e : Estimate) :
    e.suggestedFeeMutez = e.minimalFeeMutez + 100 := by
  unfold Estimate.suggestedFeeMutez Estimate.minimalFeeMutez roundUp
  have h1 : e.operationFeeMutez + MINIMAL_FEE_MUTEZ * 2
      = (MINIMAL_FEE_MUTEZ + e.operationFeeMutez) + ((100 : ℤ) : ℚ) := by
    unfold MINIMAL_FEE_MUTEZ
    push_cast
    ring
  rw [h1, Int.ceil_add_int]

theorem flatMap_ite_eq_filter_flatMap {α β : Type} (p : α → Bool) (f : α → List β) :
    ∀ l : List α,
      (l.flatMap fun a => if p a then f a else []) = (l.filter p).flatMap f := by
  intro l
  induction l with
  | nil => rfl
  | cons a t ih =>
    by_cases hp : p a = true <;>
      simp [List.filter_cons, hp, ih]

theorem collectErrors_eq_failed (rs : List PreapplyResult) :
    collectErrors rs
      = ((rs.flatMap fun r => r.contents).filter contentFailed).flatMap resultErrors := by
  unfold collectErrors
  exact flatMap_ite_eq_filter_flatMap contentFailed resultErrors _

/-- Claim C3 (amended): when the failed contents of a preapply response
contribute a non-empty aggregated `errors` list, `inject` fails with the
concatenation of the `errors` arrays of all failed contents, and its outcome
does not depend on the injector collaborator (so the signed bytes are never
broadcast); when the aggregate is empty, `inject` calls the injector on the
signed bytes and returns its operation hash. -/
theorem inject_validation (injector : String → String) (rs : List PreapplyResult)
    (prefixSig sbytes : String) :
    (collectErrors rs ≠ [] →
      inject injector (some rs) prefixSig sbytes
          = .error (.operationFailed
              (((rs.flatMap fun r => r.contents).filter contentFailed).flatMap
                resultErrors))
        ∧ ∀ injector2 : String → String,
            inject injector2 (some rs) prefixSig sbytes
              = inject injector (some rs) prefixSig sbytes)
    ∧ (collectErrors rs = [] →
      inject injector (some rs) prefixSig sbytes
        = .ok { hash := injector sbytes, opbytes := sbytes, signature := prefixSig,
                opResponse := rs.flatMap fun r => r.contents }) := by
  constructor
  · intro hne
    have hlen : (collectErrors rs).length ≠ 0 := by simpa using hne
    constructor
    · simp only [inject]
      rw [if_pos hlen, collectErrors_eq_failed]
    · intro injector2
      simp only [inject]
      rw [if_pos hlen, if_pos hlen]
  · intro hz
    have hlen : ¬(collectErrors rs).length ≠ 0 := by simp [hz]
    simp only [inject, if_neg hlen]

/-- Counterexample to claim C3 as stated: a preapply response with a content
whose status is `failed` but whose `errors` array is empty is not aborted;
`inject` proceeds and returns the injector's hash. -/
theorem inject_failed_content_still_injects :
    contentFailed failedNoErrorsContent = true
    ∧ inject (fun _ => "opHashFromInjector")
        (some [{ contents := [failedNoErrorsContent] }]) "sigFixture" "bytesFixture"
      = .ok { hash := "opHashFromInjector", opbytes := "bytesFixture",
              signature := "sigFixture", opResponse := [failedNoErrorsContent] } :=
  ⟨rfl, rfl⟩

/-- Witness for the amended claim C3 at a concrete failed preapply response. -/
theorem inject_validation_witness :
    inject (fun _ => "hashFixture") (some [{ contents := [failedWithErrorsContent] }])
        "sigFixture2" "bytesFixture2"
      = .error (.operationFailed ["errA", "errB"]) := by
  have h := (inject_validation (fun _ => "hashFixture")
    [{ contents := [failedWithErrorsContent] }] "sigFixture2" "bytesFixture2").1
    (by decide)
  rw [h.1]
  rfl

theorem pollingTicks_config_error (c : PollingConfig)
    (hbad : c.timeout ≤ 0 ∨ c.interval ≤ 0) :
    ∀ n : ℕ, pollingTicks c n
      = .error (if c.timeout ≤ 0 then PollingError.timeoutMustBeMoreThanZero
                else PollingError.intervalMustBeMoreThanZero) := by
  intro n
  induction n with
  | zero =>
    by_cases ht : c.timeout ≤ 0
    · simp [pollingTicks, checkPollingConfig, ht]
    · have hi : c.interval ≤ 0 := hbad.resolve_left ht
      simp [pollingTicks, checkPollingConfig, ht, hi]
  | succ n ih => simp [pollingTicks, ih]

theorem pollingTicks_ok (c : PollingConfig) (ht : 0 < c.timeout)
    (hi : 0 < c.interval) :
    ∀ n : ℕ, (n : ℤ) ≤ timeoutAt c → pollingTicks c n = .ok n := by
  intro n
  induction n with
  | zero =>
    intro _
    simp [pollingTicks, checkPollingConfig, not_le.mpr ht, not_le.mpr hi]
  | succ n ih =>
    intro hle
    have hn : (n : ℤ) ≤ timeoutAt c := by push_cast at hle ⊢; omega
    simp only [pollingTicks, ih hn]
    rw [if_neg (by push_cast at hle ⊢; omega)]

theorem pollingTicks_budget_exceeded (c : PollingConfig) (ht : 0 < c.timeout)
    (hi : 0 < c.interval) :
    ∀ n : ℕ, (n : ℤ) > timeoutAt c →
      pollingTicks c n = .error PollingError.confirmationPollingTimedOut := by
  intro n
  induction n with
  | zero =>
    intro h0
    exfalso
    have hpos : 0 < Int.ceil (c.timeout / c.interval) :=
      Int.ceil_pos.mpr (div_pos ht hi)
    unfold timeoutAt at h0
    omega
  | succ n ih =>
    intro hgt
    by_cases hc : (n : ℤ) > timeoutAt c
    · simp only [pollingTicks, ih hc]
    · have hle : (n : ℤ) ≤ timeoutAt c := by omega
      simp only [pollingTicks, pollingTicks_ok c ht hi n hle]
      rw [if_pos (by push_cast at hgt ⊢; omega)]

/-- Claim C5: a non-positive polling timeout or interval makes every polling
run fail immediately with the corresponding configuration error (before any
tick); with a positive configuration the tick budget is
`ceil(timeout / interval) + 1` ticks, runs within the budget succeed, runs
beyond it fail with the polling timeout error, and that error is distinct
from both configuration errors. -/
theorem polling_timeout_policy (c : PollingConfig) (n : ℕ) :
    ((c.timeout ≤ 0 ∨ c.interval ≤ 0) →
      pollingTicks c n
        = .error (if c.timeout ≤ 0 then PollingError.timeoutMustBeMoreThanZero
                  else PollingError.intervalMustBeMoreThanZero))
    ∧ (0 < c.timeout → 0 < c.interval →
        (((n : ℤ) ≤ Int.ceil (c.timeout / c.interval) + 1 →
            pollingTicks c n = .ok n)
          ∧ ((n : ℤ) > Int.ceil (c.timeout / c.interval) + 1 →
            pollingTicks c n = .error PollingError.confirmationPollingTimedOut)))
    ∧ PollingError.confirmationPollingTimedOut ≠ PollingError.timeoutMustBeMoreThanZero
    ∧ PollingError.confirmationPollingTimedOut ≠ PollingError.intervalMustBeMoreThanZero := by
  refine ⟨fun hbad => pollingTicks_config_error c hbad n,
          fun ht hi => ⟨fun hle => pollingTicks_ok c ht hi n hle,
                        fun hgt => pollingTicks_budget_exceeded c ht hi n hgt⟩,
          by decide, by decide⟩

/-- Witness for claim C5: with timeout 10 and interval 3 the budget is
`ceil(10 / 3) + 1 = 5` ticks, and the sixth tick times out. -/
theorem polling_timeout_policy_witness :
    pollingTicks { timeout := 10, interval := 3 } 6
      = .error PollingError.confirmationPollingTimedOut := by
  have h4 : Int.ceil ((10 : ℚ) / 3) = 4 := by
    rw [Int.ceil_eq_iff]; norm_num
  exact ((polling_timeout_policy { timeout := 10, interval := 3 } 6).2.1
    (by norm_num) (by norm_num)).2
    (by show (6 : ℤ) > Int.ceil ((10 : ℚ) / 3) + 1; rw [h4]; norm_num)

theorem confirmationAt_skip (opHash : String) (conf : ℤ) (pre l : List Block)
    (hpre : ∀ blk ∈ pre, blockContainsOpHash opHash blk = false) :
    confirmationAt opHash conf (pre ++ l) none = confirmationAt opHash conf l none := by
  induction pre with
  | nil => rfl
  | cons b t ih =>
    have hb : blockContainsOpHash opHash b = false := hpre b (List.mem_cons_self b t)
    simp only [List.cons_append, confirmationAt, hb, Bool.false_eq_true, if_false]
    exact ih fun blk hm => hpre blk (List.mem_cons_of_mem _ hm)

theorem confirmationAt_found (opHash : String) (conf L : ℤ) (post : List Block)
    (hreach : ∃ blk ∈ post, blk.level ≥ L + conf) :
    confirmationAt opHash conf post (some L) = some (L + conf) := by
  induction post with
  | nil => obtain ⟨b, hb, _⟩ := hreach; cases hb
  | cons b t ih =>
    simp only [confirmationAt]
    by_cases hlev : b.level - L ≥ conf
    · rw [if_pos hlev]
    · rw [if_neg hlev]
      obtain ⟨blk, hmem, hge⟩ := hreach
      rcases List.mem_cons.mp hmem with rfl | hmem2
      · exfalso; omega
      · exact ih ⟨blk, hmem2, hge⟩

/-- Claim C6: when the tracked hash first appears (scanning the four
operation-list passes) in the block observed at level `L`, and some later
observed head reaches level at least `L + N`, the confirmation stream
resolves and its value is exactly `L + N`. -/
theorem confirmation_resolves (opHash : String) (conf : ℤ) (pre post : List Block)
    (b : Block)
    (hpre : ∀ blk ∈ pre, blockContainsOpHash opHash blk = false)
    (hb : blockContainsOpHash opHash b = true)
    (hreach : ∃ blk ∈ b :: post, blk.level ≥ b.level + conf) :
    confirmationAt opHash conf (pre ++ b :: post) none = some (b.level + conf) := by
  rw [confirmationAt_skip opHash conf pre _ hpre]
  simp only [confirmationAt, hb, if_true]
  by_cases hc0 : b.level - b.level ≥ conf
  · rw [if_pos hc0]
  · rw [if_neg hc0]
    obtain ⟨blk, hmem, hge⟩ := hreach
    rcases List.mem_cons.mp hmem with rfl | hmem2
    · exfalso; omega
    · exact confirmationAt_found opHash conf b.level post ⟨blk, hmem2, hge⟩

/-- Witness for claim C6: the hash is found at level 5 (pass index 3) and the
next observed head has level 7, so a 2-confirmation wait resolves to 7. -/
theorem confirmation_resolves_witness :
    confirmationAt "opHashFixture" 2 (wBlockFound :: [wBlockLater]) none
      = some (wBlockFound.level + 2) :=
  confirmation_resolves "opHashFixture" 2 [] [wBlockLater] wBlockFound
    (by intro blk h; cases h) (by decide) ⟨wBlockLater, by simp, by decide⟩

/-- Counterexample to claim C9 as stated: an activate-account content without
a `metadata` field does not match the source filter even though its `pkh`
equals the filter's source. -/
theorem sourceFilter_activate_account_counterexample :
    ({ kind := "activate_account", pkh := some "tz1WitnessPkh" } : FilterOpContent).pkh
        = some "tz1WitnessPkh"
    ∧ sourceFilter { kind := "activate_account", pkh := some "tz1WitnessPkh" }
        { source := "tz1WitnessPkh" } = false := by
  exact ⟨rfl, by decide⟩

/-- Claim C9 (amended): an activate-account content matches a source filter
exactly when it carries a `metadata` field and its `pkh` equals the filter's
source; an endorsement content matches exactly when it carries a `metadata`
field whose `delegate` equals the filter's source. -/
theorem sourceFilter_kind_matching (x : FilterOpContent) (f : SourceFilterNode) :
    (x.kind = "activate_account" →
      (sourceFilter x f = true
        ↔ x.metadata.isSome = true ∧ x.pkh = some f.source))
    ∧ (x.kind = "endorsement" →
      (sourceFilter x f = true
        ↔ x.metadata.isSome = true
          ∧ x.metadata.bind (fun m => m.delegate) = some f.source)) := by
  constructor
  · intro hk
    simp +decide [sourceFilter, hk]
  · intro hk
    simp +decide [sourceFilter, hk]

/-- Witness for the amended claim C9 at a concrete activate-account content
carrying a metadata field. -/
theorem sourceFilter_kind_matching_witness :
    sourceFilter
        { kind := "activate_account",
          metadata := some ({ } : FilterOpMetadata),
          pkh := some "tz1WitnessPkh" }
        { source := "tz1WitnessPkh" } = true :=
  ((sourceFilter_kind_matching
      { kind := "activate_account", metadata := some ({ } : FilterOpMetadata),
        pkh := some "tz1WitnessPkh" }
      { source := "tz1WitnessPkh" }).1 rfl).mpr (by exact ⟨rfl, rfl⟩)
